import Mathlib

/-!
Verification of the object-tasks module (`src/task/08-objects-tasks.js`).

The file shallowly embeds the JavaScript source: each JS function or
prototype method becomes a Lean definition of the same name (modulo Lean
keywords), JS `null` becomes `Option.none`, a thrown exception becomes an
explicit error component, and the chained mutation of a `CssSelector`
instance becomes explicit state passing.  Theorems about the embedding
follow the definitions.
-/

/-! ## Rectangle

`function Rectangle(width, height)` assigns `this.width` and `this.height`;
`Rectangle.prototype.getArea` returns `this.width * this.height`.
JavaScript numbers are modelled as integers. -/

structure Rectangle where
  width : Int
  height : Int
deriving DecidableEq, Repr

def Rectangle.getArea (r : Rectangle) : Int :=
  r.width * r.height

/-! ## CssSelector

`function CssSelector()` initialises six part fields, the constant list
`multipleDataItem = [3, 4, 5]` (never reassigned anywhere in the source)
and `rank = 0`. -/

structure CssSelector where
  elementItem : Option String
  idItem : Option String
  classItems : List String
  attrItems : List String
  pseudoClassItems : List String
  pseudoElementItem : Option String
  rank : Nat
deriving DecidableEq, Repr

/-- The `new CssSelector()` constructor: every singleton field `null`,
every list field empty, `rank = 0`. -/
def CssSelector.new : CssSelector :=
  { elementItem := none
    idItem := none
    classItems := []
    attrItems := []
    pseudoClassItems := []
    pseudoElementItem := none
    rank := 0 }

/-- The instance field `this.multipleDataItem = [3, 4, 5]`, set by the
constructor and never written afterwards, hence a constant. -/
def CssSelector.multipleDataItem : List Nat := [3, 4, 5]

/-- Message of the duplicate-singleton exception in `checkRules`. -/
def dupMessage : String :=
  "Element, id and pseudo-element should not occur more then one time inside the selector"

/-- Message of the wrong-order exception in `checkRules`. -/
def orderMessage : String :=
  "Selector parts should be arranged in the following order: element, id, class, attribute, pseudo-class, pseudo-element"

/-- `CssSelector.prototype.checkRules(stageIndex)`: throws (returns
`some message`) when `rank === stageIndex` and `stageIndex` is not in
`multipleDataItem` (JS `indexOf(stageIndex) === -1`), or when
`stageIndex < rank`; otherwise returns normally (`none`). -/
def CssSelector.checkRules (s : CssSelector) (stageIndex : Nat) : Option String :=
  if s.rank == stageIndex && !(CssSelector.multipleDataItem.contains stageIndex) then
    some dupMessage
  else if stageIndex < s.rank then
    some orderMessage
  else
    none

/-!  Each selector-part method first calls `checkRules`; a throw aborts the
call before any assignment, so the state component returned with an error
is the receiver unchanged.  On success the method sets `rank` to its stage
index and records the value, returning `this`. -/

/-- `CssSelector.prototype.element(value)` (stage index 1). -/
def CssSelector.element (s : CssSelector) (value : String) : CssSelector × Option String :=
  match s.checkRules 1 with
  | some e => (s, some e)
  | none => ({ s with rank := 1, elementItem := some value }, none)

/-- `CssSelector.prototype.id(value)` (stage index 2). -/
def CssSelector.id (s : CssSelector) (value : String) : CssSelector × Option String :=
  match s.checkRules 2 with
  | some e => (s, some e)
  | none => ({ s with rank := 2, idItem := some value }, none)

/-- `CssSelector.prototype.class(value)` (stage index 3; `class` is a Lean
keyword, hence the primed name).  Pushes unconditionally. -/
def CssSelector.class_ (s : CssSelector) (value : String) : CssSelector × Option String :=
  match s.checkRules 3 with
  | some e => (s, some e)
  | none => ({ s with rank := 3, classItems := s.classItems ++ [value] }, none)

/-- `CssSelector.prototype.attr(value)` (stage index 4). -/
def CssSelector.attr (s : CssSelector) (value : String) : CssSelector × Option String :=
  match s.checkRules 4 with
  | some e => (s, some e)
  | none => ({ s with rank := 4, attrItems := s.attrItems ++ [value] }, none)

/-- `CssSelector.prototype.pseudoClass(value)` (stage index 5). -/
def CssSelector.pseudoClass (s : CssSelector) (value : String) : CssSelector × Option String :=
  match s.checkRules 5 with
  | some e => (s, some e)
  | none => ({ s with rank := 5, pseudoClassItems := s.pseudoClassItems ++ [value] }, none)

/-- `CssSelector.prototype.pseudoElement(value)` (stage index 6). -/
def CssSelector.pseudoElement (s : CssSelector) (value : String) : CssSelector × Option String :=
  match s.checkRules 6 with
  | some e => (s, some e)
  | none => ({ s with rank := 6, pseudoElementItem := some value }, none)

/-!  `CssSelector.prototype.toString(items, before, after)` normalises its
first argument with `items = items || []` (so `null` and the falsy empty
string both become the empty list, while a non-empty string is wrapped in
a one-element list) and then reduces with
`(prev, curr) => prev + before + curr + after` from `""`.  The source
function is used at two types, so the embedding splits it into a singleton
instance and a list instance. -/

/-- `toString` applied to a singleton field (`elementItem`, `idItem`,
`pseudoElementItem`): `null` and `""` are falsy and yield `""`; any other
string `v` yields `before ++ v ++ after`. -/
def CssSelector.toStringItem (item : Option String) (bef aft : String) : String :=
  match item with
  | none => ""
  | some v => if v = "" then "" else bef ++ v ++ aft

/-- `toString` applied to a list field (`classItems`, `attrItems`,
`pseudoClassItems`): the JS `reduce` from `""` is a left fold. -/
def CssSelector.toStringItems (items : List String) (bef aft : String) : String :=
  items.foldl (fun prev curr => prev ++ bef ++ curr ++ aft) ""

/-- `CssSelector.prototype.stringify()`. -/
def CssSelector.stringify (s : CssSelector) : String :=
  CssSelector.toStringItem s.elementItem "" "" ++
  CssSelector.toStringItem s.idItem "#" "" ++
  CssSelector.toStringItems s.classItems "." "" ++
  CssSelector.toStringItems s.attrItems "[" "]" ++
  CssSelector.toStringItems s.pseudoClassItems ":" "" ++
  CssSelector.toStringItem s.pseudoElementItem "::" ""

/-! ## Selector values and the combinator

`CssSelectorCombinator(selector1, combinator, selector2)` stores its three
arguments; its `stringify` concatenates with single spaces.  A selector-like
value is either a `CssSelector` or a combinator node, a closed sum. -/

inductive Selector where
  | simple : CssSelector → Selector
  | combinator : Selector → String → Selector → Selector
deriving DecidableEq, Repr

/-- `stringify` on a selector-like value: a `CssSelector` uses its own
`stringify`; `CssSelectorCombinator.prototype.stringify` returns
`selector1.stringify() + " " + combinator + " " + selector2.stringify()`. -/
def Selector.stringify : Selector → String
  | .simple s => s.stringify
  | .combinator s1 c s2 => s1.stringify ++ " " ++ c ++ " " ++ s2.stringify

/-! ## The facade `cssSelectorBuilder` -/

def cssSelectorBuilder.element (value : String) : CssSelector × Option String :=
  CssSelector.new.element value

def cssSelectorBuilder.id (value : String) : CssSelector × Option String :=
  CssSelector.new.id value

def cssSelectorBuilder.class_ (value : String) : CssSelector × Option String :=
  CssSelector.new.class_ value

def cssSelectorBuilder.attr (value : String) : CssSelector × Option String :=
  CssSelector.new.attr value

def cssSelectorBuilder.pseudoClass (value : String) : CssSelector × Option String :=
  CssSelector.new.pseudoClass value

def cssSelectorBuilder.pseudoElement (value : String) : CssSelector × Option String :=
  CssSelector.new.pseudoElement value

/-- `cssSelectorBuilder.combine(selector1, combinator, selector2)`. -/
def cssSelectorBuilder.combine (s1 : Selector) (c : String) (s2 : Selector) : Selector :=
  Selector.combinator s1 c s2

/-! ## Call sequences

To speak about "every sequence of successful selector-part calls" the six
methods are packaged as an operation type; `runOps` chains calls the way a
JS method chain does, aborting at the first thrown exception. -/

inductive Op where
  | element (value : String)
  | id (value : String)
  | cls (value : String)
  | attr (value : String)
  | pseudoClass (value : String)
  | pseudoElement (value : String)
deriving DecidableEq, Repr

/-- The `stageIndex` each method passes to `checkRules`. -/
def Op.stage : Op → Nat
  | .element _ => 1
  | .id _ => 2
  | .cls _ => 3
  | .attr _ => 4
  | .pseudoClass _ => 5
  | .pseudoElement _ => 6

/-- Dispatch one selector-part call. -/
def CssSelector.apply (s : CssSelector) : Op → CssSelector × Option String
  | .element v => s.element v
  | .id v => s.id v
  | .cls v => s.class_ v
  | .attr v => s.attr v
  | .pseudoClass v => s.pseudoClass v
  | .pseudoElement v => s.pseudoElement v

/-- Run a chain of selector-part calls; `none` when some call throws. -/
def runOps : CssSelector → List Op → Option CssSelector
  | s, [] => some s
  | s, op :: ops =>
    match s.apply op with
    | (_, some _) => none
    | (s', none) => runOps s' ops

/-- Whether a part of the given stage index has been recorded in the
selector's fields (non-`null` singleton, non-empty list). -/
def CssSelector.fieldSet (s : CssSelector) : Nat → Bool
  | 1 => s.elementItem.isSome
  | 2 => s.idItem.isSome
  | 3 => !s.classItems.isEmpty
  | 4 => !s.attrItems.isEmpty
  | 5 => !s.pseudoClassItems.isEmpty
  | 6 => s.pseudoElementItem.isSome
  | _ => false

/-! ## Helper lemmas about the embedding -/

/-- The successful-state update each method performs after `checkRules`
passes: set `rank` to the stage index and record the value. -/
def CssSelector.update (s : CssSelector) : Op → CssSelector
  | .element v => { s with rank := 1, elementItem := some v }
  | .id v => { s with rank := 2, idItem := some v }
  | .cls v => { s with rank := 3, classItems := s.classItems ++ [v] }
  | .attr v => { s with rank := 4, attrItems := s.attrItems ++ [v] }
  | .pseudoClass v => { s with rank := 5, pseudoClassItems := s.pseudoClassItems ++ [v] }
  | .pseudoElement v => { s with rank := 6, pseudoElementItem := some v }

theorem apply_spec (s : CssSelector) (op : Op) :
    s.apply op = match s.checkRules op.stage with
      | some e => (s, some e)
      | none => (s.update op, none) := by
  cases op <;> rfl

theorem checkRules_none_iff (s : CssSelector) (k : Nat) :
    s.checkRules k = none ↔
      s.rank ≤ k ∧ (s.rank = k → CssSelector.multipleDataItem.contains k = true) := by
  unfold CssSelector.checkRules
  split
  · rename_i hA
    simp only [Bool.and_eq_true, beq_iff_eq, Bool.not_eq_true'] at hA
    simp only [reduceCtorEq, false_iff, not_and]
    intro _ h
    have hc := h hA.1
    rw [hA.2] at hc
    simp at hc
  · rename_i hA
    simp only [Bool.and_eq_true, beq_iff_eq, Bool.not_eq_true', not_and] at hA
    split
    · rename_i hB
      simp only [reduceCtorEq, false_iff, not_and]
      omega
    · rename_i hB
      simp only [true_iff]
      constructor
      · omega
      · intro hr
        rcases h : CssSelector.multipleDataItem.contains k with _ | _
        · exact absurd h (hA hr)
        · rfl

theorem checkRules_isSome_iff (s : CssSelector) (k : Nat) :
    (s.checkRules k).isSome = true ↔
      (s.rank = k ∧ CssSelector.multipleDataItem.contains k = false) ∨ k < s.rank := by
  rcases h : s.checkRules k with _ | e
  · rw [checkRules_none_iff] at h
    simp only [Option.isSome_none, Bool.false_eq_true, false_iff, not_or, not_and, not_lt]
    constructor
    · intro hr
      rcases hc : CssSelector.multipleDataItem.contains k with _ | _
      · have hct := h.2 hr
        rw [hc] at hct
        simp at hct
      · simp
    · exact h.1
  · simp only [Option.isSome_some, true_iff]
    by_contra hcon
    push_neg at hcon
    have : s.checkRules k = none := by
      rw [checkRules_none_iff]
      refine ⟨hcon.2, fun hr => ?_⟩
      rcases hc : CssSelector.multipleDataItem.contains k with _ | _
      · exact absurd hc (by simpa using hcon.1 hr)
      · rfl
    rw [this] at h
    cases h

/-- Left fold of the JS `reduce` body equals plain concatenation of the
prefixed parts. -/
theorem toStringItems_eq_concat (bef aft : String) :
    ∀ (items : List String) (acc : String),
      items.foldl (fun prev curr => prev ++ bef ++ curr ++ aft) acc =
        acc ++ (items.map (fun v => bef ++ v ++ aft)).foldr (· ++ ·) "" := by
  intro items
  induction items with
  | nil => intro acc; simp
  | cons v vs ih =>
    intro acc
    simp only [List.foldl_cons, List.map_cons, List.foldr_cons]
    rw [ih]
    simp [String.append_assoc]

/-! ## Claim theorems -/

/-- Claim C10: for every pair of numbers `w`, `h`, the object constructed
by `Rectangle(w, h)` has `width = w`, `height = h` and `getArea() = w * h`;
in particular a 10 by 20 rectangle has area 200. -/
theorem claim_C10 :
    (∀ w h : Int, (Rectangle.mk w h).width = w ∧ (Rectangle.mk w h).height = h ∧
      (Rectangle.mk w h).getArea = w * h) ∧
    (Rectangle.mk 10 20).getArea = 200 :=
  ⟨fun _ _ => ⟨rfl, rfl, rfl⟩, by decide⟩

/-- Claim C3: for all selector-like operands and every combinator string,
`combine(s1, c, s2).stringify()` is `s1.stringify() + " " + c + " " +
s2.stringify()` (the combinator is echoed without validation), and
combined selectors nest left-to-right with one space around each symbol. -/
theorem claim_C3 :
    (∀ (s1 : Selector) (c : String) (s2 : Selector),
      (cssSelectorBuilder.combine s1 c s2).stringify =
        s1.stringify ++ " " ++ c ++ " " ++ s2.stringify) ∧
    (∀ (s1 : Selector) (c1 : String) (s2 : Selector) (c2 : String) (s3 : Selector),
      (cssSelectorBuilder.combine (cssSelectorBuilder.combine s1 c1 s2) c2 s3).stringify =
        s1.stringify ++ " " ++ c1 ++ " " ++ s2.stringify ++ " " ++ c2 ++ " " ++ s3.stringify) :=
  ⟨fun _ _ _ => rfl, fun _ _ _ _ _ => rfl⟩

/-- Claim C7: `stringify` is a total pure read on any selector state
(including the freshly constructed empty one, which prints `""`), and
`combine` is total on any two selector-like operands and any combinator
string; neither ever signals an error. -/
theorem claim_C7 :
    (∀ s : CssSelector, ∃ out : String, CssSelector.stringify s = out) ∧
    CssSelector.new.stringify = "" ∧
    (∀ sel : Selector, ∃ out : String, Selector.stringify sel = out) ∧
    (∀ (s1 : Selector) (c : String) (s2 : Selector),
      ∃ sel : Selector, cssSelectorBuilder.combine s1 c s2 = sel ∧
        sel.stringify = s1.stringify ++ " " ++ c ++ " " ++ s2.stringify) :=
  ⟨fun s => ⟨s.stringify, rfl⟩, rfl, fun sel => ⟨sel.stringify, rfl⟩,
    fun s1 c s2 => ⟨cssSelectorBuilder.combine s1 c s2, rfl, rfl⟩⟩

/-- Claim C8: a singleton part set to `""` is dropped from the output with
its prefix (the serializer treats the falsy `""` like an absent field),
while an empty string in a multi-valued sequence still emits its prefix
and brackets (`class('')` gives `"."`, `attr('')` gives `"[]"`,
`pseudoClass('')` gives `":"`). -/
theorem claim_C8 :
    (∀ s : CssSelector,
      CssSelector.stringify { s with elementItem := some "" } =
        CssSelector.stringify { s with elementItem := none } ∧
      CssSelector.stringify { s with idItem := some "" } =
        CssSelector.stringify { s with idItem := none } ∧
      CssSelector.stringify { s with pseudoElementItem := some "" } =
        CssSelector.stringify { s with pseudoElementItem := none }) ∧
    (CssSelector.new.id "").1.stringify = "" ∧
    (CssSelector.new.pseudoElement "").1.stringify = "" ∧
    (CssSelector.new.element "").1.stringify = "" ∧
    (CssSelector.new.class_ "").1.stringify = "." ∧
    (CssSelector.new.attr "").1.stringify = "[]" ∧
    (CssSelector.new.pseudoClass "").1.stringify = ":" ∧
    (∀ cs : List String,
      CssSelector.toStringItems (cs ++ [""]) "." "" =
        CssSelector.toStringItems cs "." "" ++ ".") := by
  refine ⟨fun s => ⟨?_, ?_, ?_⟩, by decide, by decide, by decide, by decide, by decide,
    by decide, fun cs => ?_⟩ <;>
    simp [CssSelector.stringify, CssSelector.toStringItem, CssSelector.toStringItems,
      List.foldl_append]

/-- Claim C5: a selector-part call that raises leaves the selector state
exactly as it was (the throw happens in `checkRules`, before any
assignment), and any later chain of calls behaves exactly as it would have
on the pre-failure state. -/
theorem claim_C5 (s : CssSelector) (op : Op) (h : (s.apply op).2.isSome = true) :
    (s.apply op).1 = s ∧
      runOps (s.apply op).1 [] = runOps s [] ∧
      (∀ op2 : Op, runOps (s.apply op).1 [op2] = runOps s [op2]) := by
  have h1 : (s.apply op).1 = s := by
    rw [apply_spec] at h ⊢
    rcases hc : s.checkRules op.stage with _ | e
    · rw [hc] at h
      simp at h
    · rfl
  exact ⟨h1, by rw [h1], fun op2 => by rw [h1]⟩

theorem claim_C5_witness :
    ((CssSelector.new.element "a").1.apply (Op.element "b")).1 = (CssSelector.new.element "a").1 ∧
      runOps ((CssSelector.new.element "a").1.apply (Op.element "b")).1 [] =
        runOps (CssSelector.new.element "a").1 [] ∧
      (∀ op2 : Op, runOps ((CssSelector.new.element "a").1.apply (Op.element "b")).1 [op2] =
        runOps (CssSelector.new.element "a").1 [op2]) :=
  claim_C5 (CssSelector.new.element "a").1 (Op.element "b") (by decide)

/-- Claim C6: the recorded rank starts at 0 (below every category) and is
non-decreasing along successful calls: each success sets the rank to the
call's stage, which is either strictly later than the old rank or repeats
the current multi-valued stage. -/
theorem claim_C6 :
    CssSelector.new.rank = 0 ∧
    ∀ (s : CssSelector) (op : Op) (s' : CssSelector), s.apply op = (s', none) →
      s'.rank = op.stage ∧ s.rank ≤ s'.rank ∧
        (s.rank < s'.rank ∨
          (s'.rank = s.rank ∧ CssSelector.multipleDataItem.contains op.stage = true)) := by
  refine ⟨rfl, fun s op s' h => ?_⟩
  rw [apply_spec] at h
  rcases hc : s.checkRules op.stage with _ | e
  · rw [hc] at h
    have hs' : s' = s.update op := by
      have := congrArg Prod.fst h
      exact this.symm
    subst hs'
    rw [checkRules_none_iff] at hc
    have hrank : (s.update op).rank = op.stage := by
      cases op <;> rfl
    refine ⟨hrank, ?_, ?_⟩
    · rw [hrank]; exact hc.1
    · rcases Nat.lt_or_ge s.rank op.stage with hlt | hge
      · left; rw [hrank]; exact hlt
      · right
        have heq : s.rank = op.stage := Nat.le_antisymm hc.1 hge
        exact ⟨by rw [hrank, heq], hc.2 heq⟩
  · rw [hc] at h
    have := congrArg Prod.snd h
    simp at this

theorem claim_C6_witness :
    ((CssSelector.new.class_ "a").1.apply (Op.cls "b")).1.rank = (Op.cls "b").stage ∧
      (CssSelector.new.class_ "a").1.rank ≤ ((CssSelector.new.class_ "a").1.apply (Op.cls "b")).1.rank ∧
        ((CssSelector.new.class_ "a").1.rank < ((CssSelector.new.class_ "a").1.apply (Op.cls "b")).1.rank ∨
          (((CssSelector.new.class_ "a").1.apply (Op.cls "b")).1.rank = (CssSelector.new.class_ "a").1.rank ∧
            CssSelector.multipleDataItem.contains (Op.cls "b").stage = true)) :=
  claim_C6.2 (CssSelector.new.class_ "a").1 (Op.cls "b")
    ((CssSelector.new.class_ "a").1.apply (Op.cls "b")).1 (by decide)

/-! ## Reachability invariant

Along any chain of successful calls, a singleton field is non-`null`
exactly when the rank has passed its stage. -/

structure SelInv (s : CssSelector) : Prop where
  elem_rank : s.elementItem.isSome = true → 1 ≤ s.rank
  rank_elem : s.rank = 1 → s.elementItem.isSome = true
  id_rank : s.idItem.isSome = true → 2 ≤ s.rank
  rank_id : s.rank = 2 → s.idItem.isSome = true
  pe_rank : s.pseudoElementItem.isSome = true → 6 ≤ s.rank
  rank_pe : s.rank = 6 → s.pseudoElementItem.isSome = true
  rank_le : s.rank ≤ 6

theorem selInv_new : SelInv CssSelector.new := by
  constructor <;> simp [CssSelector.new]

theorem selInv_apply {s s' : CssSelector} {op : Op} (hs : SelInv s)
    (h : s.apply op = (s', none)) : SelInv s' := by
  rw [apply_spec] at h
  rcases hc : s.checkRules op.stage with _ | e
  · rw [hc] at h
    have hs' : s' = s.update op := (congrArg Prod.fst h).symm
    subst hs'
    rw [checkRules_none_iff] at hc
    obtain ⟨hle, -⟩ := hc
    cases op with
    | element v =>
      simp only [Op.stage] at hle
      exact { elem_rank := fun _ => le_refl _
              rank_elem := fun _ => by simp [CssSelector.update]
              id_rank := fun hi => absurd (hs.id_rank hi) (by simp [CssSelector.update]; omega)
              rank_id := fun hr => by simp [CssSelector.update] at hr
              pe_rank := fun hp => absurd (hs.pe_rank hp) (by simp [CssSelector.update]; omega)
              rank_pe := fun hr => by simp [CssSelector.update] at hr
              rank_le := by simp [CssSelector.update] }
    | id v =>
      simp only [Op.stage] at hle
      exact { elem_rank := fun _ => by simp [CssSelector.update]
              rank_elem := fun hr => by simp [CssSelector.update] at hr
              id_rank := fun _ => le_refl _
              rank_id := fun _ => by simp [CssSelector.update]
              pe_rank := fun hp => absurd (hs.pe_rank hp) (by simp [CssSelector.update]; omega)
              rank_pe := fun hr => by simp [CssSelector.update] at hr
              rank_le := by simp [CssSelector.update] }
    | cls v =>
      simp only [Op.stage] at hle
      exact { elem_rank := fun _ => by simp [CssSelector.update]
              rank_elem := fun hr => by simp [CssSelector.update] at hr
              id_rank := fun _ => by simp [CssSelector.update]
              rank_id := fun hr => by simp [CssSelector.update] at hr
              pe_rank := fun hp => absurd (hs.pe_rank hp) (by simp [CssSelector.update]; omega)
              rank_pe := fun hr => by simp [CssSelector.update] at hr
              rank_le := by simp [CssSelector.update] }
    | attr v =>
      simp only [Op.stage] at hle
      exact { elem_rank := fun _ => by simp [CssSelector.update]
              rank_elem := fun hr => by simp [CssSelector.update] at hr
              id_rank := fun _ => by simp [CssSelector.update]
              rank_id := fun hr => by simp [CssSelector.update] at hr
              pe_rank := fun hp => absurd (hs.pe_rank hp) (by simp [CssSelector.update]; omega)
              rank_pe := fun hr => by simp [CssSelector.update] at hr
              rank_le := by simp [CssSelector.update] }
    | pseudoClass v =>
      simp only [Op.stage] at hle
      exact { elem_rank := fun _ => by simp [CssSelector.update]
              rank_elem := fun hr => by simp [CssSelector.update] at hr
              id_rank := fun _ => by simp [CssSelector.update]
              rank_id := fun hr => by simp [CssSelector.update] at hr
              pe_rank := fun hp => absurd (hs.pe_rank hp) (by simp [CssSelector.update]; omega)
              rank_pe := fun hr => by simp [CssSelector.update] at hr
              rank_le := by simp [CssSelector.update] }
    | pseudoElement v =>
      simp only [Op.stage] at hle
      exact { elem_rank := fun _ => by simp [CssSelector.update]
              rank_elem := fun hr => by simp [CssSelector.update] at hr
              id_rank := fun _ => by simp [CssSelector.update]
              rank_id := fun hr => by simp [CssSelector.update] at hr
              pe_rank := fun _ => le_refl _
              rank_pe := fun _ => by simp [CssSelector.update]
              rank_le := by simp [CssSelector.update] }
  · rw [hc] at h
    have := congrArg Prod.snd h
    simp at this

theorem selInv_runOps {s s' : CssSelector} {ops : List Op} (hs : SelInv s)
    (h : runOps s ops = some s') : SelInv s' := by
  induction ops generalizing s with
  | nil =>
    simp only [runOps, Option.some.injEq] at h
    exact h ▸ hs
  | cons op ops ih =>
    rw [runOps] at h
    rcases ha : s.apply op with ⟨s1, e⟩
    rw [ha] at h
    cases e with
    | some msg => simp at h
    | none => exact ih (selInv_apply hs ha) h

theorem apply_err_iff (s : CssSelector) (op : Op) :
    (s.apply op).2.isSome = (s.checkRules op.stage).isSome := by
  rw [apply_spec]
  rcases hc : s.checkRules op.stage with _ | e <;> rfl

/-- Claim C2: on any selector reached by successful calls, a selector-part
operation raises if and only if its category is a singleton already
recorded in the selector, or its stage is strictly below the most recently
recorded stage. -/
theorem claim_C2 (ops : List Op) (s : CssSelector)
    (h : runOps CssSelector.new ops = some s) (op : Op) :
    (s.apply op).2.isSome = true ↔
      ((CssSelector.multipleDataItem.contains op.stage = false ∧
        s.fieldSet op.stage = true) ∨ op.stage < s.rank) := by
  have inv := selInv_runOps selInv_new h
  rw [apply_err_iff, checkRules_isSome_iff]
  cases op with
  | element v =>
    simp only [Op.stage, CssSelector.fieldSet]
    constructor
    · rintro (⟨hr, -⟩ | hlt)
      · exact Or.inl ⟨by decide, inv.rank_elem hr⟩
      · exact Or.inr hlt
    · rintro (⟨-, hfs⟩ | hlt)
      · rcases Nat.lt_or_ge 1 s.rank with hl | hg
        · exact Or.inr hl
        · exact Or.inl ⟨Nat.le_antisymm hg (inv.elem_rank hfs), by decide⟩
      · exact Or.inr hlt
  | id v =>
    simp only [Op.stage, CssSelector.fieldSet]
    constructor
    · rintro (⟨hr, -⟩ | hlt)
      · exact Or.inl ⟨by decide, inv.rank_id hr⟩
      · exact Or.inr hlt
    · rintro (⟨-, hfs⟩ | hlt)
      · rcases Nat.lt_or_ge 2 s.rank with hl | hg
        · exact Or.inr hl
        · exact Or.inl ⟨Nat.le_antisymm hg (inv.id_rank hfs), by decide⟩
      · exact Or.inr hlt
  | cls v =>
    simp only [Op.stage, CssSelector.fieldSet]
    constructor
    · rintro (⟨-, hcont⟩ | hlt)
      · exact absurd hcont (by decide)
      · exact Or.inr hlt
    · rintro (⟨hcont, -⟩ | hlt)
      · exact absurd hcont (by decide)
      · exact Or.inr hlt
  | attr v =>
    simp only [Op.stage, CssSelector.fieldSet]
    constructor
    · rintro (⟨-, hcont⟩ | hlt)
      · exact absurd hcont (by decide)
      · exact Or.inr hlt
    · rintro (⟨hcont, -⟩ | hlt)
      · exact absurd hcont (by decide)
      · exact Or.inr hlt
  | pseudoClass v =>
    simp only [Op.stage, CssSelector.fieldSet]
    constructor
    · rintro (⟨-, hcont⟩ | hlt)
      · exact absurd hcont (by decide)
      · exact Or.inr hlt
    · rintro (⟨hcont, -⟩ | hlt)
      · exact absurd hcont (by decide)
      · exact Or.inr hlt
  | pseudoElement v =>
    simp only [Op.stage, CssSelector.fieldSet]
    constructor
    · rintro (⟨hr, -⟩ | hlt)
      · exact Or.inl ⟨by decide, inv.rank_pe hr⟩
      · exact Or.inr hlt
    · rintro (⟨-, hfs⟩ | hlt)
      · rcases Nat.lt_or_ge 6 s.rank with hl | hg
        · exact Or.inr hl
        · exact Or.inl ⟨Nat.le_antisymm hg (inv.pe_rank hfs), by decide⟩
      · exact Or.inr hlt

theorem claim_C2_witness :
    ((CssSelector.new.element "a").1.apply (Op.element "b")).2.isSome = true ↔
      ((CssSelector.multipleDataItem.contains (Op.element "b").stage = false ∧
        (CssSelector.new.element "a").1.fieldSet (Op.element "b").stage = true) ∨
        (Op.element "b").stage < (CssSelector.new.element "a").1.rank) :=
  claim_C2 [Op.element "a"] (CssSelector.new.element "a").1 (by decide) (Op.element "b")

/-! ## Claim C1: specified serialization order -/

/-- Concatenation of already-prefixed parts, used to phrase the spec's
serialization clause. -/
def concatParts : List String → String
  | [] => ""
  | p :: ps => p ++ concatParts ps

/-- Serialization exactly as claim C1 words it: the element value verbatim
with no prefix, then `"#" + id` if present, then `"." + c` for each class
in insertion order, then `"[" + a + "]"` for each attribute, then
`":" + p` for each pseudo-class, then `"::" + pseudoElement` if present;
absent singleton fields and empty sequences contribute nothing. -/
def specStringify (s : CssSelector) : String :=
  (match s.elementItem with | none => "" | some v => v) ++
  (match s.idItem with | none => "" | some v => "#" ++ v) ++
  concatParts (s.classItems.map (fun c => "." ++ c)) ++
  concatParts (s.attrItems.map (fun a => "[" ++ a ++ "]")) ++
  concatParts (s.pseudoClassItems.map (fun p => ":" ++ p)) ++
  (match s.pseudoElementItem with | none => "" | some v => "::" ++ v)

/-- Serialization as claim C1 amended: identical except that the `"#"`
and `"::"` prefixes are also suppressed when the recorded id or
pseudo-element value is the empty string. -/
def specStringifyAmended (s : CssSelector) : String :=
  (match s.elementItem with | none => "" | some v => v) ++
  (match s.idItem with | none => "" | some v => if v = "" then "" else "#" ++ v) ++
  concatParts (s.classItems.map (fun c => "." ++ c)) ++
  concatParts (s.attrItems.map (fun a => "[" ++ a ++ "]")) ++
  concatParts (s.pseudoClassItems.map (fun p => ":" ++ p)) ++
  (match s.pseudoElementItem with | none => "" | some v => if v = "" then "" else "::" ++ v)

theorem concatParts_eq_foldr : ∀ l : List String, concatParts l = l.foldr (· ++ ·) ""
  | [] => rfl
  | p :: ps => by rw [concatParts, concatParts_eq_foldr ps]; rfl

theorem toStringItems_eq_concatParts (items : List String) (bef aft : String) :
    CssSelector.toStringItems items bef aft =
      concatParts (items.map (fun v => bef ++ v ++ aft)) := by
  unfold CssSelector.toStringItems
  rw [toStringItems_eq_concat, concatParts_eq_foldr]
  simp

/-- Claim C1 counterexample: the chain `id('')` succeeds, the claim's
serialization emits `"#"` for the present id, but `stringify()` emits
nothing because the empty string is falsy in `toString`. -/
theorem claim_C1_counterexample :
    runOps CssSelector.new [Op.id ""] = some (CssSelector.new.id "").1 ∧
    (CssSelector.new.id "").1.stringify = "" ∧
    specStringify (CssSelector.new.id "").1 = "#" ∧
    ("" : String) ≠ "#" :=
  ⟨rfl, by decide, by decide, by decide⟩

/-- Claim C1 (amended): on every selector reached by successful calls,
`stringify()` is the fixed-category-order concatenation, with the `"#"`
and `"::"` prefixes also suppressed when the recorded id or pseudo-element
is the empty string. -/
theorem claim_C1 (ops : List Op) (s : CssSelector)
    (_h : runOps CssSelector.new ops = some s) :
    s.stringify = specStringifyAmended s := by
  unfold CssSelector.stringify specStringifyAmended
  rw [toStringItems_eq_concatParts, toStringItems_eq_concatParts,
    toStringItems_eq_concatParts]
  rcases s.elementItem with _ | ev <;> rcases s.idItem with _ | iv <;>
    rcases s.pseudoElementItem with _ | pv <;>
    simp only [CssSelector.toStringItem] <;> (try split_ifs) <;> simp_all

theorem claim_C1_witness :
    (CssSelector.new.element "a").1.stringify =
      specStringifyAmended (CssSelector.new.element "a").1 :=
  claim_C1 [Op.element "a"] (CssSelector.new.element "a").1 (by decide)

/-! ## Claim C4: multi-valued repeats -/

theorem runOps_cls (vs : List String) :
    ∀ s : CssSelector, s.rank = 3 →
      runOps s (vs.map Op.cls) = some { s with classItems := s.classItems ++ vs } := by
  induction vs with
  | nil =>
    intro s _
    simp [runOps]
  | cons v vs ih =>
    intro s hr
    simp only [List.map_cons, runOps, CssSelector.apply, CssSelector.class_,
      CssSelector.checkRules, hr]
    norm_num [CssSelector.multipleDataItem]
    rw [ih _ rfl]
    simp [List.append_assoc]

theorem runOps_attr (vs : List String) :
    ∀ s : CssSelector, s.rank = 4 →
      runOps s (vs.map Op.attr) = some { s with attrItems := s.attrItems ++ vs } := by
  induction vs with
  | nil =>
    intro s _
    simp [runOps]
  | cons v vs ih =>
    intro s hr
    simp only [List.map_cons, runOps, CssSelector.apply, CssSelector.attr,
      CssSelector.checkRules, hr]
    norm_num [CssSelector.multipleDataItem]
    rw [ih _ rfl]
    simp [List.append_assoc]

theorem runOps_pseudoClass (vs : List String) :
    ∀ s : CssSelector, s.rank = 5 →
      runOps s (vs.map Op.pseudoClass) =
        some { s with pseudoClassItems := s.pseudoClassItems ++ vs } := by
  induction vs with
  | nil =>
    intro s _
    simp [runOps]
  | cons v vs ih =>
    intro s hr
    simp only [List.map_cons, runOps, CssSelector.apply, CssSelector.pseudoClass,
      CssSelector.checkRules, hr]
    norm_num [CssSelector.multipleDataItem]
    rw [ih _ rfl]
    simp [List.append_assoc]

/-- Claim C4: when the most recently recorded category is a multi-valued
one, re-calling that same operation any number of times never raises,
appends every value unconditionally, and `stringify` reproduces the
appended values in exactly the call order. -/
theorem claim_C4 :
    (∀ (s : CssSelector) (vs : List String), s.rank = 3 →
      runOps s (vs.map Op.cls) = some { s with classItems := s.classItems ++ vs } ∧
      CssSelector.stringify { s with classItems := s.classItems ++ vs } =
        CssSelector.toStringItem s.elementItem "" "" ++
        CssSelector.toStringItem s.idItem "#" "" ++
        CssSelector.toStringItems (s.classItems ++ vs) "." "" ++
        CssSelector.toStringItems s.attrItems "[" "]" ++
        CssSelector.toStringItems s.pseudoClassItems ":" "" ++
        CssSelector.toStringItem s.pseudoElementItem "::" "") ∧
    (∀ (s : CssSelector) (vs : List String), s.rank = 4 →
      runOps s (vs.map Op.attr) = some { s with attrItems := s.attrItems ++ vs } ∧
      CssSelector.stringify { s with attrItems := s.attrItems ++ vs } =
        CssSelector.toStringItem s.elementItem "" "" ++
        CssSelector.toStringItem s.idItem "#" "" ++
        CssSelector.toStringItems s.classItems "." "" ++
        CssSelector.toStringItems (s.attrItems ++ vs) "[" "]" ++
        CssSelector.toStringItems s.pseudoClassItems ":" "" ++
        CssSelector.toStringItem s.pseudoElementItem "::" "") ∧
    (∀ (s : CssSelector) (vs : List String), s.rank = 5 →
      runOps s (vs.map Op.pseudoClass) =
        some { s with pseudoClassItems := s.pseudoClassItems ++ vs } ∧
      CssSelector.stringify { s with pseudoClassItems := s.pseudoClassItems ++ vs } =
        CssSelector.toStringItem s.elementItem "" "" ++
        CssSelector.toStringItem s.idItem "#" "" ++
        CssSelector.toStringItems s.classItems "." "" ++
        CssSelector.toStringItems s.attrItems "[" "]" ++
        CssSelector.toStringItems (s.pseudoClassItems ++ vs) ":" "" ++
        CssSelector.toStringItem s.pseudoElementItem "::" "") :=
  ⟨fun s vs hr => ⟨runOps_cls vs s hr, rfl⟩,
    fun s vs hr => ⟨runOps_attr vs s hr, rfl⟩,
    fun s vs hr => ⟨runOps_pseudoClass vs s hr, rfl⟩⟩

theorem claim_C4_witness :
    runOps (CssSelector.new.class_ "a").1 (["b", "c"].map Op.cls) =
      some { (CssSelector.new.class_ "a").1 with
        classItems := (CssSelector.new.class_ "a").1.classItems ++ ["b", "c"] } ∧
    runOps (CssSelector.new.attr "a").1 (["b"].map Op.attr) =
      some { (CssSelector.new.attr "a").1 with
        attrItems := (CssSelector.new.attr "a").1.attrItems ++ ["b"] } ∧
    runOps (CssSelector.new.pseudoClass "a").1 (["b"].map Op.pseudoClass) =
      some { (CssSelector.new.pseudoClass "a").1 with
        pseudoClassItems := (CssSelector.new.pseudoClass "a").1.pseudoClassItems ++ ["b"] } :=
  ⟨(claim_C4.1 (CssSelector.new.class_ "a").1 ["b", "c"] (by decide)).1,
    (claim_C4.2.1 (CssSelector.new.attr "a").1 ["b"] (by decide)).1,
    (claim_C4.2.2 (CssSelector.new.pseudoClass "a").1 ["b"] (by decide)).1⟩

/-! ## The structured-data encoder and `fromJSON`

`getJSON` is `JSON.stringify` and `fromJSON` is
`Object.setPrototypeOf(JSON.parse(json), proto)`.  `JSON.stringify` /
`JSON.parse` are standard-library collaborators, not code of this
repository; the spec specifies them only as: produce the canonical
textual serialization of a nested mapping/sequence/primitive value, and
parse such text back into an equivalent in-memory value, with the exact
textual conventions delegated to the standard library.  They are
therefore modelled here by a concrete executable serializer and parser
over a JSON value type (JavaScript numbers restricted to integers). -/

inductive Json where
  | null : Json
  | bool (b : Bool) : Json
  | num (n : Int) : Json
  | str (s : String) : Json
  | arr (elems : List Json) : Json
  | obj (members : List (String × Json)) : Json

/-- The opening-brace character, written by code. -/
def lbraceChar : Char := '\x7b'

/-- The closing-brace character, written by code. -/
def rbraceChar : Char := '\x7d'

/-- Keyword spellings of the three JSON literals. -/
def nullChars : List Char := ['n', 'u', 'l', 'l']

def trueChars : List Char := ['t', 'r', 'u', 'e']

def falseChars : List Char := ['f', 'a', 'l', 's', 'e']

def natDigitsAux : Nat → Nat → List Nat
  | 0, _ => []
  | fuel + 1, n => if n = 0 then [] else n % 10 :: natDigitsAux fuel (n / 10)

/-- Base-10 digits of `n`, least significant first (empty for 0). -/
def natDigits (n : Nat) : List Nat := natDigitsAux n n

def digitChar (d : Nat) : Char := Char.ofNat (48 + d)

def charVal (c : Char) : Nat := c.toNat - 48

/-- Decimal digit characters of `n`, most significant first. -/
def natChars (n : Nat) : List Char :=
  if n = 0 then ['0'] else ((natDigits n).map digitChar).reverse

def ofNatDigits : List Nat → Nat
  | [] => 0
  | d :: ds => d + 10 * ofNatDigits ds

/-- Value of a digit-character run, most significant first. -/
def digitsToNat (ds : List Char) : Nat := ofNatDigits (ds.reverse.map charVal)

def escapeChar (c : Char) : List Char :=
  if c = '"' ∨ c = '\\' then ['\\', c] else [c]

def escapeStr : List Char → List Char
  | [] => []
  | c :: cs => escapeChar c ++ escapeStr cs

def serStr (s : String) : List Char := '"' :: escapeStr s.data ++ ['"']

def serInt (i : Int) : List Char :=
  if i < 0 then '-' :: natChars i.natAbs else natChars i.natAbs

mutual

def serJson : Json → List Char
  | .null => nullChars
  | .bool true => trueChars
  | .bool false => falseChars
  | .num i => serInt i
  | .str s => serStr s
  | .arr xs => '[' :: serArr xs ++ [']']
  | .obj kvs => lbraceChar :: serObj kvs ++ [rbraceChar]

def serArr : List Json → List Char
  | [] => []
  | [x] => serJson x
  | x :: y :: xs => serJson x ++ ',' :: serArr (y :: xs)

def serObj : List (String × Json) → List Char
  | [] => []
  | [(k, v)] => serStr k ++ ':' :: serJson v
  | (k, v) :: p :: kvs => serStr k ++ ':' :: serJson v ++ ',' :: serObj (p :: kvs)

end

/-- Modelled from the spec: `JSON.stringify`, the standard-library
structured-data encoder used by `getJSON` and absent from `src/`
(canonical textual serialization of a nested value). -/
def JSONstringify (v : Json) : String := String.mk (serJson v)

def noDigitStart : List Char → Bool
  | [] => true
  | c :: _ => !c.isDigit

def parseLit : List Char → List Char → Option (List Char)
  | [], input => some input
  | _ :: _, [] => none
  | c :: cs, d :: input => if c = d then parseLit cs input else none

def parseDigits : List Char → List Char × List Char
  | [] => ([], [])
  | c :: rest =>
    if c.isDigit then
      let p := parseDigits rest
      (c :: p.1, p.2)
    else ([], c :: rest)

mutual

def parseStrBody : List Char → Option (List Char × List Char)
  | [] => none
  | c :: rest =>
    if c = '"' then some ([], rest)
    else if c = '\\' then parseStrEsc rest
    else (parseStrBody rest).map (fun p => (c :: p.1, p.2))

def parseStrEsc : List Char → Option (List Char × List Char)
  | [] => none
  | d :: rest => (parseStrBody rest).map (fun p => (d :: p.1, p.2))

end

mutual

def parseJson : Nat → List Char → Option (Json × List Char)
  | 0, _ => none
  | _ + 1, [] => none
  | fuel + 1, c :: rest =>
    if c = 'n' then (parseLit nullChars.tail rest).map (fun r => (Json.null, r))
    else if c = 't' then (parseLit trueChars.tail rest).map (fun r => (Json.bool true, r))
    else if c = 'f' then (parseLit falseChars.tail rest).map (fun r => (Json.bool false, r))
    else if c = '"' then (parseStrBody rest).map (fun p => (Json.str (String.mk p.1), p.2))
    else if c = '-' then
      match parseDigits rest with
      | ([], _) => none
      | (ds, r) => some (Json.num (-(digitsToNat ds : Int)), r)
    else if c = '[' then (parseElems fuel rest).map (fun p => (Json.arr p.1, p.2))
    else if c = lbraceChar then (parseMembers fuel rest).map (fun p => (Json.obj p.1, p.2))
    else
      match parseDigits (c :: rest) with
      | ([], _) => none
      | (ds, r) => some (Json.num ((digitsToNat ds : Nat) : Int), r)

def parseElems : Nat → List Char → Option (List Json × List Char)
  | 0, _ => none
  | _ + 1, [] => none
  | fuel + 1, c :: rest =>
    if c = ']' then some ([], rest)
    else
      match parseJson fuel (c :: rest) with
      | none => none
      | some (x, r) =>
        match r with
        | [] => none
        | c2 :: r2 =>
          if c2 = ',' then (parseElems fuel r2).map (fun p => (x :: p.1, p.2))
          else if c2 = ']' then some ([x], r2)
          else none

def parseMembers : Nat → List Char → Option (List (String × Json) × List Char)
  | 0, _ => none
  | _ + 1, [] => none
  | fuel + 1, c :: rest =>
    if c = rbraceChar then some ([], rest)
    else if c = '"' then
      match parseStrBody rest with
      | none => none
      | some (k, r) =>
        match r with
        | [] => none
        | c2 :: r2 =>
          if c2 = ':' then
            match parseJson fuel r2 with
            | none => none
            | some (v, r3) =>
              match r3 with
              | [] => none
              | c3 :: r4 =>
                if c3 = ',' then
                  (parseMembers fuel r4).map (fun p => ((String.mk k, v) :: p.1, p.2))
                else if c3 = rbraceChar then some ([(String.mk k, v)], r4)
                else none
          else none
    else none

end

/-- Modelled from the spec: `JSON.parse`, the standard-library decoder
used by `fromJSON` and absent from `src/` (parse the canonical text back
into an equivalent in-memory value; a failure on malformed text is the
thrown `SyntaxError`). -/
def JSONparse (s : String) : Option Json :=
  match parseJson (2 * s.length + 2) s.data with
  | some (v, []) => some v
  | _ => none

/-! ## Correctness of the number digits -/

theorem natDigitsAux_lt10 : ∀ (fuel n d : Nat), d ∈ natDigitsAux fuel n → d < 10 := by
  intro fuel
  induction fuel with
  | zero => intro n d h; simp [natDigitsAux] at h
  | succ fuel ih =>
    intro n d h
    rw [natDigitsAux] at h
    split at h
    · simp at h
    · rcases List.mem_cons.mp h with h1 | h2
      · subst h1; exact Nat.mod_lt _ (by omega)
      · exact ih _ _ h2

theorem ofNatDigits_natDigitsAux : ∀ (fuel n : Nat), n ≤ fuel →
    ofNatDigits (natDigitsAux fuel n) = n := by
  intro fuel
  induction fuel with
  | zero => intro n h; interval_cases n; rfl
  | succ fuel ih =>
    intro n h
    rw [natDigitsAux]
    split
    · rename_i h0; simp [ofNatDigits, h0]
    · rename_i h0
      rw [ofNatDigits, ih (n / 10) (by omega)]
      omega

theorem ofNatDigits_natDigits (n : Nat) : ofNatDigits (natDigits n) = n :=
  ofNatDigits_natDigitsAux n n (le_refl n)

theorem natDigits_ne_nil (n : Nat) (h : n ≠ 0) : natDigits n ≠ [] := by
  unfold natDigits
  rcases n with _ | m
  · exact absurd rfl h
  · rw [natDigitsAux]
    split
    · omega
    · simp

theorem charVal_digitChar (d : Nat) (h : d < 10) : charVal (digitChar d) = d := by
  interval_cases d <;> decide

theorem isDigit_digitChar (d : Nat) (h : d < 10) : (digitChar d).isDigit = true := by
  interval_cases d <;> decide

theorem natChars_isDigit (n : Nat) : ∀ c ∈ natChars n, c.isDigit = true := by
  intro c hc
  unfold natChars at hc
  split at hc
  · simp at hc; subst hc; decide
  · rw [List.mem_reverse, List.mem_map] at hc
    obtain ⟨d, hd, hdc⟩ := hc
    subst hdc
    exact isDigit_digitChar d (natDigitsAux_lt10 _ _ _ hd)

theorem natChars_ne_nil (n : Nat) : natChars n ≠ [] := by
  unfold natChars
  split
  · simp
  · rename_i h0
    simp only [ne_eq, List.reverse_eq_nil_iff, List.map_eq_nil_iff]
    exact natDigits_ne_nil n h0

theorem digitsToNat_natChars (n : Nat) : digitsToNat (natChars n) = n := by
  unfold digitsToNat natChars
  split
  · rename_i h0; subst h0; decide
  · rw [List.reverse_reverse, List.map_map]
    have hmap : List.map (charVal ∘ digitChar) (natDigits n) = natDigits n :=
      calc List.map (charVal ∘ digitChar) (natDigits n)
          = List.map id (natDigits n) :=
            List.map_congr_left
              (fun d hd => charVal_digitChar d (natDigitsAux_lt10 _ _ _ hd))
        _ = natDigits n := List.map_id _
    rw [hmap, ofNatDigits_natDigits]

/-! ## Inversion of the parsing helpers on serializer output -/

theorem parseLit_append : ∀ (cs rest : List Char), parseLit cs (cs ++ rest) = some rest := by
  intro cs
  induction cs with
  | nil => intro rest; rfl
  | cons c cs ih =>
    intro rest
    simp only [List.cons_append, parseLit, if_pos rfl]
    exact ih rest

theorem parseStrBody_escape : ∀ (cs rest : List Char),
    parseStrBody (escapeStr cs ++ '"' :: rest) = some (cs, rest) := by
  intro cs
  induction cs with
  | nil =>
    intro rest
    show parseStrBody ('"' :: rest) = some ([], rest)
    rw [parseStrBody, if_pos rfl]
  | cons c cs ih =>
    intro rest
    rw [escapeStr, escapeChar]
    by_cases hc : c = '"' ∨ c = '\\'
    · rw [if_pos hc]
      show parseStrBody ('\\' :: c :: (escapeStr cs ++ '"' :: rest)) = some (c :: cs, rest)
      rw [parseStrBody, if_neg (by decide), if_pos rfl, parseStrEsc, ih rest]
      rfl
    · rw [if_neg hc]
      push_neg at hc
      show parseStrBody (c :: (escapeStr cs ++ '"' :: rest)) = some (c :: cs, rest)
      rw [parseStrBody, if_neg hc.1, if_neg hc.2, ih rest]
      rfl

theorem parseDigits_append : ∀ (ds rest : List Char),
    (∀ c ∈ ds, c.isDigit = true) → noDigitStart rest = true →
    parseDigits (ds ++ rest) = (ds, rest) := by
  intro ds
  induction ds with
  | nil =>
    intro rest _ hnd
    rcases rest with _ | ⟨c, r⟩
    · rfl
    · simp only [noDigitStart, Bool.not_eq_true'] at hnd
      simp only [List.nil_append, parseDigits, hnd]
      rfl
  | cons d ds ih =>
    intro rest hdig hnd
    have hd : d.isDigit = true := hdig d (List.mem_cons_self d ds)
    have hrec : parseDigits (ds ++ rest) = (ds, rest) :=
      ih rest (fun c hc => hdig c (List.mem_cons_of_mem d hc)) hnd
    rw [List.cons_append, parseDigits, if_pos hd]
    simp only [hrec]

theorem serJson_ne_nil (v : Json) : serJson v ≠ [] := by
  cases v with
  | null => decide
  | bool b => cases b <;> decide
  | num i =>
    rw [serJson, serInt]
    split
    · simp
    · exact natChars_ne_nil _
  | str s => rw [serJson, serStr]; simp
  | arr xs => rw [serJson]; simp
  | obj kvs => rw [serJson]; simp

theorem serJson_head_not_rbrack (v : Json) :
    ∀ (c : Char) (cs : List Char), serJson v = c :: cs → c ≠ ']' := by
  intro c cs h
  cases v with
  | null => rw [serJson] at h; cases h; decide
  | bool b => cases b <;> (rw [serJson] at h; cases h; decide)
  | num i =>
    rw [serJson, serInt] at h
    split at h
    · cases h; decide
    · have hmem : c ∈ natChars i.natAbs := by rw [h]; exact List.mem_cons_self c cs
      have hdig := natChars_isDigit _ c hmem
      intro he
      subst he
      simp at hdig
  | str s => rw [serJson, serStr] at h; cases h; decide
  | arr xs => rw [serJson] at h; cases h; decide
  | obj kvs => rw [serJson] at h; cases h; decide

theorem serJson_len_pos (v : Json) : 0 < (serJson v).length := by
  rcases hv : serJson v with _ | ⟨c, cs⟩
  · exact absurd hv (serJson_ne_nil v)
  · simp

theorem isDigit_facts (c : Char) (h : c.isDigit = true) :
    c ≠ 'n' ∧ c ≠ 't' ∧ c ≠ 'f' ∧ c ≠ '"' ∧ c ≠ '-' ∧ c ≠ '[' ∧ c ≠ lbraceChar := by
  refine ⟨?_, ?_, ?_, ?_, ?_, ?_, ?_⟩ <;> (rintro rfl; exact absurd h (by decide))

/-- Parsing inverts serialization: with enough fuel, `parseJson` consumes
exactly the serialized value and returns it together with the untouched
remainder (which must not begin with a digit, since number parsing is
greedy). -/
theorem parse_ser : ∀ fuel : Nat,
    (∀ (v : Json) (rest : List Char), noDigitStart rest = true →
      2 * (serJson v).length ≤ fuel →
      parseJson fuel (serJson v ++ rest) = some (v, rest)) ∧
    (∀ (xs : List Json) (rest : List Char),
      2 * (serArr xs).length + 2 ≤ fuel →
      parseElems fuel (serArr xs ++ ']' :: rest) = some (xs, rest)) ∧
    (∀ (kvs : List (String × Json)) (rest : List Char),
      2 * (serObj kvs).length + 2 ≤ fuel →
      parseMembers fuel (serObj kvs ++ rbraceChar :: rest) = some (kvs, rest)) := by
  intro fuel
  induction fuel with
  | zero =>
    refine ⟨fun v rest _ hf => ?_, fun xs rest hf => ?_, fun kvs rest hf => ?_⟩
    · have := serJson_len_pos v; omega
    · omega
    · omega
  | succ fuel ih =>
    obtain ⟨ihP, ihQ, ihR⟩ := ih
    refine ⟨fun v rest hnd hf => ?_, fun xs rest hf => ?_, fun kvs rest hf => ?_⟩
    · cases v with
      | null =>
        show parseJson (fuel + 1) ('n' :: (nullChars.tail ++ rest)) = some (Json.null, rest)
        rw [parseJson, if_pos rfl, parseLit_append]
        rfl
      | bool b =>
        cases b with
        | false =>
          show parseJson (fuel + 1) ('f' :: (falseChars.tail ++ rest)) =
            some (Json.bool false, rest)
          rw [parseJson, if_neg (by decide), if_neg (by decide), if_pos rfl, parseLit_append]
          rfl
        | true =>
          show parseJson (fuel + 1) ('t' :: (trueChars.tail ++ rest)) =
            some (Json.bool true, rest)
          rw [parseJson, if_neg (by decide), if_pos rfl, parseLit_append]
          rfl
      | str s =>
        have hshape : serJson (Json.str s) ++ rest =
            '"' :: (escapeStr s.data ++ '"' :: rest) := by
          show (('"' :: escapeStr s.data ++ ['"']) ++ rest) = _
          simp [List.append_assoc]
        rw [hshape, parseJson, if_neg (by decide), if_neg (by decide), if_neg (by decide),
          if_pos rfl, parseStrBody_escape]
        rfl
      | num i =>
        by_cases hneg : i < 0
        · have hshape : serJson (Json.num i) ++ rest = '-' :: (natChars i.natAbs ++ rest) := by
            show serInt i ++ rest = _
            rw [serInt, if_pos hneg]
            rfl
          rw [hshape, parseJson, if_neg (by decide), if_neg (by decide), if_neg (by decide),
            if_neg (by decide), if_pos rfl,
            parseDigits_append _ _ (natChars_isDigit _) hnd]
          rcases hnc : natChars i.natAbs with _ | ⟨c, cs⟩
          · exact absurd hnc (natChars_ne_nil _)
          · show some (Json.num (-(digitsToNat (c :: cs) : Int)), rest) = some (Json.num i, rest)
            rw [← hnc, digitsToNat_natChars]
            have hi : (-(i.natAbs : Int)) = i := by omega
            rw [hi]
        · have hshape : serJson (Json.num i) ++ rest = natChars i.natAbs ++ rest := by
            show serInt i ++ rest = _
            rw [serInt, if_neg hneg]
          rw [hshape]
          rcases hnc : natChars i.natAbs with _ | ⟨c, cs⟩
          · exact absurd hnc (natChars_ne_nil _)
          · have hall : ∀ x ∈ c :: cs, x.isDigit = true := by
              rw [← hnc]; exact natChars_isDigit _
            have hcdig : c.isDigit = true := hall c (List.mem_cons_self _ _)
            obtain ⟨h1, h2, h3, h4, h5, h6, h7⟩ := isDigit_facts c hcdig
            rw [List.cons_append, parseJson, if_neg h1, if_neg h2, if_neg h3, if_neg h4,
              if_neg h5, if_neg h6, if_neg h7]
            have hdp : parseDigits (c :: (cs ++ rest)) = (c :: cs, rest) := by
              have := parseDigits_append (c :: cs) rest hall hnd
              rw [List.cons_append] at this
              exact this
            rw [hdp]
            show some (Json.num ((digitsToNat (c :: cs) : Nat) : Int), rest) =
              some (Json.num i, rest)
            rw [← hnc, digitsToNat_natChars]
            have hi : ((i.natAbs : Nat) : Int) = i := by omega
            rw [hi]
      | arr xs =>
        have hshape : serJson (Json.arr xs) ++ rest = '[' :: (serArr xs ++ ']' :: rest) := by
          show ('[' :: serArr xs ++ [']']) ++ rest = _
          simp [List.append_assoc]
        have hlen : 2 * (serArr xs).length + 2 ≤ fuel := by
          have hl : (serJson (Json.arr xs)).length = (serArr xs).length + 2 := by
            rw [serJson]
            simp
          omega
        rw [hshape, parseJson, if_neg (by decide), if_neg (by decide), if_neg (by decide),
          if_neg (by decide), if_neg (by decide), if_pos rfl, ihQ xs rest hlen]
        rfl
      | obj kvs =>
        have hshape : serJson (Json.obj kvs) ++ rest =
            lbraceChar :: (serObj kvs ++ rbraceChar :: rest) := by
          show (lbraceChar :: serObj kvs ++ [rbraceChar]) ++ rest = _
          simp [List.append_assoc]
        have hlen : 2 * (serObj kvs).length + 2 ≤ fuel := by
          have hl : (serJson (Json.obj kvs)).length = (serObj kvs).length + 2 := by
            rw [serJson]
            simp
          omega
        rw [hshape, parseJson, if_neg (by decide), if_neg (by decide), if_neg (by decide),
          if_neg (by decide), if_neg (by decide), if_neg (by decide), if_pos rfl,
          ihR kvs rest hlen]
        rfl
    · cases xs with
      | nil =>
        show parseElems (fuel + 1) (']' :: rest) = some ([], rest)
        rw [parseElems, if_pos rfl]
      | cons x xs' =>
        rcases hser : serJson x with _ | ⟨c, cs⟩
        · exact absurd hser (serJson_ne_nil x)
        · have hne : c ≠ ']' := serJson_head_not_rbrack x c cs hser
          have hxlen : (serJson x).length = cs.length + 1 := by rw [hser]; simp
          cases xs' with
          | nil =>
            have hshape : serArr [x] ++ ']' :: rest = c :: (cs ++ ']' :: rest) := by
              show serJson x ++ ']' :: rest = _
              rw [hser]
              rfl
            rw [hshape, parseElems, if_neg hne]
            have hP : parseJson fuel (c :: (cs ++ ']' :: rest)) = some (x, ']' :: rest) := by
              have heq : c :: (cs ++ ']' :: rest) = serJson x ++ ']' :: rest := by
                rw [hser]; rfl
              rw [heq]
              refine ihP x (']' :: rest) rfl ?_
              have : (serArr [x]).length = (serJson x).length := rfl
              omega
            rw [hP]
            rfl
          | cons y xs'' =>
            have hsarr : serArr (x :: y :: xs'') = serJson x ++ ',' :: serArr (y :: xs'') := by
              rw [serArr]
            have hshape : serArr (x :: y :: xs'') ++ ']' :: rest =
                c :: (cs ++ ',' :: (serArr (y :: xs'') ++ ']' :: rest)) := by
              rw [hsarr, hser]
              simp [List.append_assoc]
            have halen : (serArr (x :: y :: xs'')).length =
                (serJson x).length + 1 + (serArr (y :: xs'')).length := by
              rw [hsarr]
              simp
              omega
            rw [hshape, parseElems, if_neg hne]
            have hP : parseJson fuel (c :: (cs ++ ',' :: (serArr (y :: xs'') ++ ']' :: rest))) =
                some (x, ',' :: (serArr (y :: xs'') ++ ']' :: rest)) := by
              have heq : c :: (cs ++ ',' :: (serArr (y :: xs'') ++ ']' :: rest)) =
                  serJson x ++ ',' :: (serArr (y :: xs'') ++ ']' :: rest) := by
                rw [hser]; rfl
              rw [heq]
              refine ihP x _ rfl ?_
              omega
            rw [hP]
            show (parseElems fuel (serArr (y :: xs'') ++ ']' :: rest)).map
              (fun p => (x :: p.1, p.2)) = some (x :: y :: xs'', rest)
            rw [ihQ (y :: xs'') rest (by omega)]
            rfl
    · cases kvs with
      | nil =>
        show parseMembers (fuel + 1) (rbraceChar :: rest) = some ([], rest)
        rw [parseMembers, if_pos rfl]
      | cons kv kvs' =>
        obtain ⟨k, v⟩ := kv
        cases kvs' with
        | nil =>
          have hshape : serObj [(k, v)] ++ rbraceChar :: rest =
              '"' :: (escapeStr k.data ++ '"' :: (':' :: (serJson v ++ rbraceChar :: rest))) := by
            show (serStr k ++ ':' :: serJson v) ++ rbraceChar :: rest = _
            rw [serStr]
            simp [List.append_assoc]
          rw [hshape, parseMembers, if_neg (by decide), if_pos rfl, parseStrBody_escape]
          have hP : parseJson fuel (serJson v ++ rbraceChar :: rest) =
              some (v, rbraceChar :: rest) := by
            refine ihP v _ rfl ?_
            have hol : (serObj [(k, v)]).length =
                (serStr k).length + 1 + (serJson v).length := by
              show (serStr k ++ ':' :: serJson v).length = _
              simp
              omega
            omega
          show (match parseJson fuel (serJson v ++ rbraceChar :: rest) with
            | none => none
            | some (w, r3) =>
              match r3 with
              | [] => none
              | c3 :: r4 =>
                if c3 = ',' then
                  (parseMembers fuel r4).map (fun p => ((String.mk k.data, w) :: p.1, p.2))
                else if c3 = rbraceChar then some ([(String.mk k.data, w)], r4)
                else none) = some ([(k, v)], rest)
          rw [hP]
          rfl
        | cons p kvs'' =>
          have hsobj : serObj ((k, v) :: p :: kvs'') =
              serStr k ++ ':' :: serJson v ++ ',' :: serObj (p :: kvs'') := by
            rw [serObj]
          have hshape : serObj ((k, v) :: p :: kvs'') ++ rbraceChar :: rest =
              '"' :: (escapeStr k.data ++ '"' :: (':' :: (serJson v ++
                ',' :: (serObj (p :: kvs'') ++ rbraceChar :: rest)))) := by
            rw [hsobj, serStr]
            simp [List.append_assoc]
          have holen : (serObj ((k, v) :: p :: kvs'')).length =
              (serStr k).length + 1 + (serJson v).length + 1 +
                (serObj (p :: kvs'')).length := by
            rw [hsobj]
            simp
            omega
          rw [hshape, parseMembers, if_neg (by decide), if_pos rfl, parseStrBody_escape]
          have hP : parseJson fuel (serJson v ++
              ',' :: (serObj (p :: kvs'') ++ rbraceChar :: rest)) =
              some (v, ',' :: (serObj (p :: kvs'') ++ rbraceChar :: rest)) := by
            refine ihP v _ rfl ?_
            have hsl : 0 < (serStr k).length := by rw [serStr]; simp
            omega
          show (match parseJson fuel (serJson v ++
              ',' :: (serObj (p :: kvs'') ++ rbraceChar :: rest)) with
            | none => none
            | some (w, r3) =>
              match r3 with
              | [] => none
              | c3 :: r4 =>
                if c3 = ',' then
                  (parseMembers fuel r4).map (fun q => ((String.mk k.data, w) :: q.1, q.2))
                else if c3 = rbraceChar then some ([(String.mk k.data, w)], r4)
                else none) = some ((k, v) :: p :: kvs'', rest)
          rw [hP]
          show (parseMembers fuel (serObj (p :: kvs'') ++ rbraceChar :: rest)).map
            (fun q => ((String.mk k.data, v) :: q.1, q.2)) = some ((k, v) :: p :: kvs'', rest)
          have hsl : 0 < (serStr k).length := by rw [serStr]; simp
          rw [ihR (p :: kvs'') rest (by omega)]
          rfl

/-- Round trip of the modelled encoder: parsing the canonical
serialization returns the value. -/
theorem JSONparse_stringify (v : Json) : JSONparse (JSONstringify v) = some v := by
  have hP := (parse_ser (2 * (serJson v).length + 2)).1 v [] rfl (by omega)
  rw [List.append_nil] at hP
  show (match parseJson (2 * (serJson v).length + 2) (serJson v) with
    | some (w, []) => some w
    | _ => none) = some v
  rw [hP]

/-- A decoded value rebound to a prototype: the plain decoded fields
together with the shared behaviour set; models the result of
`Object.setPrototypeOf(fields, proto)` (fields neither re-validated nor
copied). -/
structure WithProto (π : Type) where
  fields : Json
  proto : π

/-- `getJSON(obj)`: `return JSON.stringify(obj)`. -/
def getJSON (obj : Json) : String := JSONstringify obj

/-- `fromJSON(proto, json)`:
`return Object.setPrototypeOf(JSON.parse(json), proto)`; a parse failure
is the thrown `SyntaxError`. -/
def fromJSON {π : Type} (proto : π) (json : String) : Option (WithProto π) :=
  (JSONparse json).map (fun fields => WithProto.mk fields proto)

/-- Modelled from the spec: a `Rectangle` instance as the nested value the
standard-library encoder sees, its two own fields in insertion order. -/
def Rectangle.toJson (r : Rectangle) : Json :=
  Json.obj [("width", Json.num r.width), ("height", Json.num r.height)]

/-- Property lookup on a decoded object. -/
def jsonField : Json → String → Option Json
  | Json.obj kvs, key => kvs.lookup key
  | _, _ => none

/-- `Rectangle.prototype` as a behaviour set over decoded fields:
`getArea` returns `this.width * this.height`. -/
def rectanglePrototype (fields : Json) : Option Int :=
  match jsonField fields "width", jsonField fields "height" with
  | some (Json.num w), some (Json.num h) => some (w * h)
  | _, _ => none

/-- Claim C9: for every plain JSON-representable value `v`,
`fromJSON(proto, getJSON(v))` round-trips, yielding exactly `v`'s fields
together with the prototype's methods; in particular rebinding a decoded
`Rectangle` to `Rectangle.prototype` gives `getArea() = w * h`. -/
theorem claim_C9 :
    (∀ (π : Type) (proto : π) (v : Json),
      fromJSON proto (getJSON v) = some (WithProto.mk v proto)) ∧
    (∀ w h : Int,
      (fromJSON rectanglePrototype (getJSON (Rectangle.mk w h).toJson)).map
        (fun o => o.proto o.fields) = some (some (w * h))) := by
  constructor
  · intro π proto v
    unfold fromJSON getJSON
    rw [JSONparse_stringify]
    rfl
  · intro w h
    unfold fromJSON getJSON
    rw [JSONparse_stringify]
    rfl
